import Mathlib

/-!
# Verification of the Room Session Manager (src/server.mjs)

A shallow embedding of the room-lifecycle core of `src/server.mjs`:
the data model (`Room`, `Seat`, `User`, `Stats`, the store held in `db`),
the five room handlers (`create`, `join`, `start`, `updateState`, `readRoom`),
the stats aggregator run on a winner report, and the projection
(`sanitizeRoom`).  JavaScript objects used as string-keyed dictionaries
(`db.rooms`, `stats.vs`) are modelled as association lists where assignment
replaces the first matching key or appends; in-place mutation of an object
found in an array (`db.users.find(...)`, `room.players.find(...)`) is
modelled as updating the first matching element of the list.
-/

/-- JSON values, the payloads carried in request bodies and in `room.state`.
JS numbers are modelled as integers (the claims under study never depend on
fractional values); `NaN`/`Infinity` never occur inside parsed JSON. -/
inductive JValue where
  | null
  | bool (b : Bool)
  | num (n : Int)
  | str (s : String)
  | arr (elems : List JValue)
  | obj (fields : List (String × JValue))

/-- JavaScript truthiness of a JSON value: `null`, `false`, `0` and `""`
are falsy; every array and object is truthy. -/
def JValue.truthy : JValue → Bool
  | .null => false
  | .bool b => b
  | .num n => n != 0
  | .str s => s != ""
  | .arr _ => true
  | .obj _ => true

mutual

/-- `JSON.parse(JSON.stringify(v))`: a structural deep copy of a JSON value,
rebuilding every node (used by `sanitizeRoom` so the returned `state` never
aliases the server-held value). -/
def deepCopy : JValue → JValue
  | .null => .null
  | .bool b => .bool b
  | .num n => .num n
  | .str s => .str s
  | .arr elems => .arr (deepCopyList elems)
  | .obj fields => .obj (deepCopyObj fields)

/-- Deep copy of the elements of a JSON array. -/
def deepCopyList : List JValue → List JValue
  | [] => []
  | x :: xs => deepCopy x :: deepCopyList xs

/-- Deep copy of the fields of a JSON object. -/
def deepCopyObj : List (String × JValue) → List (String × JValue)
  | [] => []
  | f :: fs => (f.1, deepCopy f.2) :: deepCopyObj fs

end

/-- A JS number that may be `NaN` (the only non-finite value the room code
can produce, via `Number(..)` on a non-numeric input). -/
inductive JSNum where
  | nan
  | int (n : Int)
deriving DecidableEq

/-- `Number(s)` for a string: the empty string converts to `0`, an integer
numeral (optionally signed) to its value, anything non-numeric to `NaN`.
(Fractional numerals and surrounding whitespace are outside the model.) -/
def strToNumber (s : String) : JSNum :=
  match s.data with
  | [] => .int 0
  | c :: cs =>
    if (c :: cs).all Char.isDigit then
      .int ((c :: cs).foldl (fun n d => 10 * n + (d.toNat - 48)) 0)
    else if c == '-' && cs != [] && cs.all Char.isDigit then
      .int (-(cs.foldl (fun n d => 10 * n + (d.toNat - 48)) 0 : Nat))
    else .nan

/-- `Number(v)` for a JSON value.  Arrays convert through their string form;
the model covers the cases reachable here: `[]` is `0`, a singleton numeric
or string element converts as that element, other arrays and all objects
give `NaN`. -/
def toNumber : JValue → JSNum
  | .null => .int 0
  | .bool b => .int (if b then 1 else 0)
  | .num n => .int n
  | .str s => strToNumber s
  | .arr [] => .int 0
  | .arr [.num n] => .int n
  | .arr [.str s] => strToNumber s
  | .arr _ => .nan
  | .obj _ => .nan

/-- `Math.min(4, x)`: `NaN` propagates. -/
def jsMin4 : JSNum → JSNum
  | .nan => .nan
  | .int n => .int (min 4 n)

/-- `Math.max(2, x)`: `NaN` propagates. -/
def jsMax2 : JSNum → JSNum
  | .nan => .nan
  | .int n => .int (max 2 n)

/-- JS `>=` with a possibly-NaN right operand: every comparison with `NaN`
is false. -/
def jsGe (l : Nat) : JSNum → Bool
  | .nan => false
  | .int n => (l : Int) ≥ n

/-- A player's membership record in a room: `{ id, username, connected }`. -/
structure Seat where
  id : String
  username : String
  connected : Bool
deriving DecidableEq

/-- A room as stored in `db.rooms`.  `state` is `null` or an arbitrary JSON
payload; `maxPlayers` is whatever `Math.max(2, Math.min(4, Number(..)))`
produced, hence possibly `NaN`. -/
structure Room where
  id : String
  hostId : String
  players : List Seat
  maxPlayers : JSNum
  started : Bool
  locked : Bool
  state : JValue
  revision : Nat

/-- One per-opponent record inside `stats.vs`. -/
structure VsRec where
  wins : Nat
  losses : Nat
deriving DecidableEq

/-- A user's durable statistics `{ wins, losses, vs }`; `vs` is a JS object
keyed by opponent display name, modelled as an association list. -/
structure Stats where
  wins : Nat
  losses : Nat
  vs : List (String × VsRec)
deriving DecidableEq

/-- A durable user record (credential material elided: it is owned by the
external Credential Store and never touched by the room code). -/
structure User where
  id : String
  username : String
  stats : Stats
deriving DecidableEq

/-- An immutable match-history record.  The source field `at` (a keyword in
Lean) is rendered `atTime`. -/
structure HistoryEntry where
  id : String
  roomId : String
  players : List String
  winner : String
  atTime : Nat

/-- The in-memory authority `db`: users, rooms (a JS object keyed by room
id) and match history.  Sessions are owned by the external token store; a
handler receives the already-authenticated caller instead. -/
structure Store where
  users : List User
  rooms : List (String × Room)
  history : List HistoryEntry

/-- The authenticated caller, as resolved by `authUser`: the identity taken
from the matching user record (`none` models a missing/unknown token). -/
structure Auth where
  id : String
  username : String

/-- Lookup in a JS object used as a dictionary (`db.rooms[k]`). -/
def alistGet {β : Type} (l : List (String × β)) (k : String) : Option β :=
  (l.find? (fun e => e.1 == k)).map (fun e => e.2)

/-- Assignment into a JS object used as a dictionary (`o[k] = v`): replaces
the first binding of `k`, or appends a new one. -/
def alistSet {β : Type} : List (String × β) → String → β → List (String × β)
  | [], k, v => [(k, v)]
  | e :: rest, k, v => if e.1 == k then (k, v) :: rest else e :: alistSet rest k v

/-- The error responses a room handler can return, with the HTTP status and
message used in the source. -/
inductive Err where
  | unauthorized       -- 401 unauthorized
  | notFound           -- 404 room not found
  | roomFull           -- 400 room full or started
  | forbidden          -- 403 host only
  | invalidPlayerCount -- 400 need 2-4 players
  | notInRoom          -- 403 not in room
deriving DecidableEq

/-- The per-caller projection of a room returned by every room endpoint:
`sanitizeRoom` re-lists the seats, deep-copies `state` (or returns `null`
for a falsy stored state) and computes `youAreHost`. -/
structure RoomView where
  id : String
  hostId : String
  players : List Seat
  started : Bool
  locked : Bool
  revision : Nat
  state : JValue
  youAreHost : Bool

/-- `sanitizeRoom(room, requesterId)` from the source: the public view of a
room.  `room.state ? deep-copy : null`. -/
def sanitizeRoom (room : Room) (requesterId : String) : RoomView :=
  { id := room.id
    hostId := room.hostId
    players := room.players.map (fun p => { id := p.id, username := p.username, connected := p.connected })
    started := room.started
    locked := room.locked
    revision := room.revision
    state := if room.state.truthy then deepCopy room.state else .null
    youAreHost := room.hostId == requesterId }

/-- `seat.connected = true` on the seat found by
`room.players.find(p => p.id === uid)`: sets the first matching seat's
flag, leaves the list unchanged when no seat matches. -/
def setConnectedFirst : List Seat → String → List Seat
  | [], _ => []
  | p :: rest, uid =>
    if p.id == uid then { p with connected := true } :: rest
    else p :: setConnectedFirst rest uid

/-- Mutation of the user found by `db.users.find(x => x.id === pid)`:
applies `f` to the first matching user's stats, no-op when absent
(the aggregator's silent skip). -/
def updateFirstUser : List User → String → (Stats → Stats) → List User
  | [], _, _ => []
  | u :: rest, pid, f =>
    if u.id == pid then { u with stats := f u.stats } :: rest
    else u :: updateFirstUser rest pid f

/-- `stats.vs[name]` after `||= {wins:0,losses:0}`: the stored record, or a
fresh zero record. -/
def vsGet (vs : List (String × VsRec)) (name : String) : VsRec :=
  (alistGet vs name).getD ⟨0, 0⟩

/-- One inner-loop step of the aggregator:
`stats.vs[op.username] ||= {wins:0,losses:0}` followed by incrementing its
`wins` (winner) or `losses` (loser). -/
def vsBump (vs : List (String × VsRec)) (name : String) (isWin : Bool) : List (String × VsRec) :=
  let cur := vsGet vs name
  alistSet vs name (if isWin then ⟨cur.wins + 1, cur.losses⟩ else ⟨cur.wins, cur.losses + 1⟩)

/-- The per-player body of the aggregator loop: increment `wins` or
`losses`, then bump `vs[op.username]` for every *other* seated player
`op`. -/
def scoreStats (players : List Seat) (winnerId : String) (p : Seat) (st : Stats) : Stats :=
  let isWin := p.id == winnerId
  let st1 : Stats :=
    if isWin then { st with wins := st.wins + 1 } else { st with losses := st.losses + 1 }
  { st1 with
      vs := (players.filter (fun op => op.id != p.id)).foldl
              (fun acc op => vsBump acc op.username isWin) st1.vs }

/-- The Stats Aggregator (`room.players.forEach(...)` in the winner-report
branch): for every seated player, look up their durable record by id and
apply `scoreStats`, skipping silently when no record matches. -/
def applyWinnerStats (users : List User) (players : List Seat) (winnerId : String) : List User :=
  players.foldl (fun us p => updateFirstUser us p.id (scoreStats players winnerId p)) users

/-- `db.users.find(u => u.id === uid)`. -/
def findUser (users : List User) (uid : String) : Option User :=
  users.find? (fun u => u.id == uid)

/-- `POST /api/rooms` (create).  Clamp from the source:
`Math.max(2, Math.min(4, Number(maxPlayers || 4)))`.  The body field
`maxPlayers` is a JSON value (`.null` models an omitted field, which like
every falsy value falls back to `4`).  `newId` stands for the random
`randomUUID().slice(0, 8)` code.  Returns the sanitized room. -/
def create (s : Store) (auth : Option Auth) (maxPlayers : JValue) (newId : String) :
    Except Err RoomView × Store :=
  match auth with
  | none => (.error .unauthorized, s)
  | some u =>
    let maxp := jsMax2 (jsMin4 (toNumber (if maxPlayers.truthy then maxPlayers else .num 4)))
    let room : Room :=
      { id := newId, hostId := u.id
        players := [{ id := u.id, username := u.username, connected := true }]
        maxPlayers := maxp, started := false, locked := false
        state := .null, revision := 0 }
    (.ok (sanitizeRoom room u.id), { s with rooms := alistSet s.rooms room.id room })

/-- `POST /api/rooms/:id/join`.  A caller already seated is reconnected
(`seat.connected = true`) and the revision is bumped; a new caller is
rejected when the room is started or full, otherwise a fresh seat is
appended; either accepted path bumps `revision` by 1. -/
def join (s : Store) (auth : Option Auth) (roomId : String) :
    Except Err RoomView × Store :=
  match auth with
  | none => (.error .unauthorized, s)
  | some u =>
    match alistGet s.rooms roomId with
    | none => (.error .notFound, s)
    | some room =>
      if room.players.any (fun p => p.id == u.id) then
        let room' := { room with
          players := setConnectedFirst room.players u.id
          revision := room.revision + 1 }
        (.ok (sanitizeRoom room' u.id), { s with rooms := alistSet s.rooms roomId room' })
      else if room.started || jsGe room.players.length room.maxPlayers then
        (.error .roomFull, s)
      else
        let seat : Seat := { id := u.id, username := u.username, connected := true }
        let room' := { room with
          players := room.players ++ [seat]
          revision := room.revision + 1 }
        (.ok (sanitizeRoom room' u.id), { s with rooms := alistSet s.rooms roomId room' })

/-- `POST /api/rooms/:id/start`.  Host-only; requires 2–4 seated players;
sets `started`, stores `state || null` and bumps `revision`. -/
def start (s : Store) (auth : Option Auth) (roomId : String) (bodyState : JValue) :
    Except Err RoomView × Store :=
  match auth with
  | none => (.error .unauthorized, s)
  | some u =>
    match alistGet s.rooms roomId with
    | none => (.error .notFound, s)
    | some room =>
      if room.hostId != u.id then (.error .forbidden, s)
      else if room.players.length < 2 || room.players.length > 4 then
        (.error .invalidPlayerCount, s)
      else
        let room' := { room with
          started := true
          state := if bodyState.truthy then bodyState else .null
          revision := room.revision + 1 }
        (.ok (sanitizeRoom room' u.id), { s with rooms := alistSet s.rooms roomId room' })

/-- `POST /api/rooms/:id/state`.  A seated caller unconditionally replaces
`state` and bumps `revision`; when the body carries a truthy
`reportWinnerId`, the room is started and the id resolves to a seated
player, the Stats Aggregator runs, one history entry is appended and
`started` is reset to false.  `histId`/`now` stand for `randomUUID()` and
`Date.now()`.  Returns `{ ok, revision }` as the pair's revision. -/
def updateState (s : Store) (auth : Option Auth) (roomId : String) (newState : JValue)
    (reportWinnerId : Option String) (histId : String) (now : Nat) :
    Except Err Nat × Store :=
  match auth with
  | none => (.error .unauthorized, s)
  | some u =>
    match alistGet s.rooms roomId with
    | none => (.error .notFound, s)
    | some room =>
      if room.players.any (fun p => p.id == u.id) then
        let room1 := { room with state := newState, revision := room.revision + 1 }
        let winnerOpt : Option Seat :=
          match reportWinnerId with
          | none => none
          | some w =>
            if w != "" && room1.started then room1.players.find? (fun p => p.id == w)
            else none
        match winnerOpt with
        | none =>
          (.ok room1.revision, { s with rooms := alistSet s.rooms roomId room1 })
        | some winner =>
          let users' := applyWinnerStats s.users room1.players winner.id
          let entry : HistoryEntry :=
            { id := histId, roomId := roomId
              players := room1.players.map (fun p => p.username)
              winner := winner.username, atTime := now }
          let room2 := { room1 with started := false }
          (.ok room2.revision,
           { s with users := users'
                    rooms := alistSet s.rooms roomId room2
                    history := s.history ++ [entry] })
      else (.error .notInRoom, s)

/-- `GET /api/rooms/:id` (read).  Marks the caller's own seat connected when
they are seated, bumps no revision, returns the sanitized room. -/
def readRoom (s : Store) (auth : Option Auth) (roomId : String) :
    Except Err RoomView × Store :=
  match auth with
  | none => (.error .unauthorized, s)
  | some u =>
    match alistGet s.rooms roomId with
    | none => (.error .notFound, s)
    | some room =>
      let room' := { room with players := setConnectedFirst room.players u.id }
      (.ok (sanitizeRoom room' u.id), { s with rooms := alistSet s.rooms roomId room' })

/-- The room operations, abstracted for reachability statements.  The
random arguments (`newId`, `histId`, `now`) are carried explicitly. -/
inductive Op where
  | create (auth : Option Auth) (maxPlayers : JValue) (newId : String)
  | join (auth : Option Auth) (roomId : String)
  | start (auth : Option Auth) (roomId : String) (bodyState : JValue)
  | update (auth : Option Auth) (roomId : String) (newState : JValue)
      (reportWinnerId : Option String) (histId : String) (now : Nat)
  | read (auth : Option Auth) (roomId : String)

/-- The store after running one operation (the handlers' store component). -/
def applyOp (s : Store) : Op → Store
  | .create auth mp newId => (create s auth mp newId).2
  | .join auth roomId => (join s auth roomId).2
  | .start auth roomId bodyState => (start s auth roomId bodyState).2
  | .update auth roomId newState w histId now =>
      (updateState s auth roomId newState w histId now).2
  | .read auth roomId => (readRoom s auth roomId).2

/-- `randomUUID()` never repeats: a `create` draws a room code not already
in the registry (the spec's "assigns a unique short opaque identifier").
Every other operation is unconstrained. -/
def opFresh (s : Store) : Op → Prop
  | .create _ _ newId => alistGet s.rooms newId = none
  | _ => True

/-- Stores reachable through the room API from a boot store (no rooms, no
history; user records are created by the external register endpoint and may
be arbitrary). -/
inductive Reachable : Store → Prop where
  | init (users : List User) : Reachable { users := users, rooms := [], history := [] }
  | step {s : Store} (op : Op) (h : Reachable s) (hfresh : opFresh s op) :
      Reachable (applyOp s op)

/-! ## Association-list lemmas -/

theorem alistGet_alistSet_self {β : Type} (l : List (String × β)) (k : String) (v : β) :
    alistGet (alistSet l k v) k = some v := by
  induction l with
  | nil => simp [alistGet, alistSet]
  | cons e rest ih =>
    by_cases h : e.1 = k
    · simp [alistGet, alistSet, h]
    · simp only [alistSet, beq_iff_eq, if_neg h]
      simpa [alistGet, h] using ih

theorem alistGet_alistSet_ne {β : Type} (l : List (String × β)) (k k' : String) (v : β)
    (h : k' ≠ k) : alistGet (alistSet l k v) k' = alistGet l k' := by
  induction l with
  | nil => simp [alistGet, alistSet, Ne.symm h]
  | cons e rest ih =>
    by_cases he : e.1 = k
    · simp [alistGet, alistSet, he, Ne.symm h, h]
    · by_cases he' : e.1 = k'
      · simp [alistGet, alistSet, if_neg he, he', h]
      · simp only [alistSet, beq_iff_eq, if_neg he]
        simpa [alistGet, he'] using ih

theorem alistGet_alistSet_cases {β : Type} (l : List (String × β)) (k k' : String) (v : β)
    (r : β) (h : alistGet (alistSet l k v) k' = some r) :
    (k' = k ∧ r = v) ∨ (k' ≠ k ∧ alistGet l k' = some r) := by
  by_cases hk : k' = k
  · subst hk
    rw [alistGet_alistSet_self] at h
    exact Or.inl ⟨rfl, (Option.some_injective _ h).symm⟩
  · rw [alistGet_alistSet_ne l k k' v hk] at h
    exact Or.inr ⟨hk, h⟩

/-! ## Seat-list lemmas -/

theorem setConnectedFirst_map_id (ps : List Seat) (uid : String) :
    (setConnectedFirst ps uid).map Seat.id = ps.map Seat.id := by
  induction ps with
  | nil => rfl
  | cons p rest ih =>
    by_cases h : p.id = uid
    · simp [setConnectedFirst, h]
    · simp [setConnectedFirst, h, ih]

theorem setConnectedFirst_map_username (ps : List Seat) (uid : String) :
    (setConnectedFirst ps uid).map Seat.username = ps.map Seat.username := by
  induction ps with
  | nil => rfl
  | cons p rest ih =>
    by_cases h : p.id = uid
    · simp [setConnectedFirst, h]
    · simp [setConnectedFirst, h, ih]

theorem setConnectedFirst_length (ps : List Seat) (uid : String) :
    (setConnectedFirst ps uid).length = ps.length := by
  induction ps with
  | nil => rfl
  | cons p rest ih =>
    by_cases h : p.id = uid
    · simp [setConnectedFirst, h]
    · simp [setConnectedFirst, h, ih]

theorem find?_setConnectedFirst_self (ps : List Seat) (uid : String) :
    (setConnectedFirst ps uid).find? (fun p => p.id == uid) =
      (ps.find? (fun p => p.id == uid)).map (fun p => { p with connected := true }) := by
  induction ps with
  | nil => rfl
  | cons p rest ih =>
    by_cases h : p.id = uid
    · simp [setConnectedFirst, h]
    · simp [setConnectedFirst, h, ih]

theorem setConnectedFirst_all_connected (ps : List Seat) (uid : String)
    (h : ∀ p ∈ ps, p.connected = true) :
    ∀ p ∈ setConnectedFirst ps uid, p.connected = true := by
  induction ps with
  | nil => simp [setConnectedFirst]
  | cons p rest ih =>
    by_cases hp : p.id = uid
    · simp only [setConnectedFirst, beq_iff_eq, if_pos hp]
      intro q hq
      rcases List.mem_cons.1 hq with rfl | hq
      · rfl
      · exact h q (List.mem_cons_of_mem _ hq)
    · simp only [setConnectedFirst, beq_iff_eq, if_neg hp]
      intro q hq
      rcases List.mem_cons.1 hq with rfl | hq
      · exact h q (List.mem_cons_self _ _)
      · exact ih (fun r hr => h r (List.mem_cons_of_mem _ hr)) q hq

theorem setConnectedFirst_eq_map_of_nodup (ps : List Seat) (uid : String)
    (hnd : (ps.map Seat.id).Nodup) :
    setConnectedFirst ps uid =
      ps.map (fun p => if p.id == uid then { p with connected := true } else p) := by
  induction ps with
  | nil => rfl
  | cons p rest ih =>
    simp only [List.map_cons, List.nodup_cons] at hnd
    by_cases h : p.id = uid
    · simp only [setConnectedFirst, beq_iff_eq, if_pos h, List.map_cons]
      congr 1
      subst h
      rw [List.map_congr_left]
      · exact (List.map_id rest).symm
      · intro q hq
        have : q.id ≠ p.id := fun he => hnd.1 (he ▸ List.mem_map_of_mem Seat.id hq)
        simp [this]
    · simp [setConnectedFirst, h, ih hnd.2]

/-! ## Deep-copy lemmas -/

mutual

theorem deepCopy_eq : ∀ j : JValue, deepCopy j = j
  | .null => by rw [deepCopy]
  | .bool _ => by rw [deepCopy]
  | .num _ => by rw [deepCopy]
  | .str _ => by rw [deepCopy]
  | .arr elems => by rw [deepCopy, deepCopyList_eq]
  | .obj fields => by rw [deepCopy, deepCopyObj_eq]

theorem deepCopyList_eq : ∀ l : List JValue, deepCopyList l = l
  | [] => by rw [deepCopyList]
  | x :: xs => by rw [deepCopyList, deepCopy_eq, deepCopyList_eq]

theorem deepCopyObj_eq : ∀ fs : List (String × JValue), deepCopyObj fs = fs
  | [] => by rw [deepCopyObj]
  | f :: fs => by rw [deepCopyObj, deepCopy_eq, deepCopyObj_eq]

end

/-! ## User-list lemmas -/

theorem findUser_updateFirstUser_ne (us : List User) (pid qid : String) (f : Stats → Stats)
    (h : qid ≠ pid) : findUser (updateFirstUser us pid f) qid = findUser us qid := by
  induction us with
  | nil => rfl
  | cons u rest ih =>
    by_cases hu : u.id = pid
    · have h2 : u.id ≠ qid := by rw [hu]; exact fun he => h he.symm
      simp [updateFirstUser, findUser, hu, h2, Ne.symm h]
    · by_cases hq : u.id = qid
      · simp [updateFirstUser, findUser, hu, hq, h]
      · simpa [updateFirstUser, findUser, hu, hq] using ih

theorem findUser_updateFirstUser_self (us : List User) (pid : String) (f : Stats → Stats) :
    findUser (updateFirstUser us pid f) pid =
      (findUser us pid).map (fun u => { u with stats := f u.stats }) := by
  induction us with
  | nil => rfl
  | cons u rest ih =>
    by_cases hu : u.id = pid
    · simp [updateFirstUser, findUser, hu]
    · simpa [updateFirstUser, findUser, hu] using ih

theorem findUser_foldl_update_not_mem (qs : List Seat) (users : List User) (pid : String)
    (g : Seat → Stats → Stats) (h : pid ∉ qs.map Seat.id) :
    findUser (qs.foldl (fun us q => updateFirstUser us q.id (g q)) users) pid =
      findUser users pid := by
  induction qs generalizing users with
  | nil => rfl
  | cons q rest ih =>
    simp only [List.map_cons, List.mem_cons] at h
    push_neg at h
    rw [List.foldl_cons, ih _ h.2, findUser_updateFirstUser_ne _ _ _ _ h.1]

theorem findUser_foldl_update_mem (ps : List Seat) (users : List User) (p : Seat)
    (g : Seat → Stats → Stats) (hp : p ∈ ps) (hnd : (ps.map Seat.id).Nodup) :
    findUser (ps.foldl (fun us q => updateFirstUser us q.id (g q)) users) p.id =
      (findUser users p.id).map (fun u => { u with stats := g p u.stats }) := by
  induction ps generalizing users with
  | nil => cases hp
  | cons q rest ih =>
    simp only [List.map_cons, List.nodup_cons] at hnd
    rcases List.mem_cons.1 hp with rfl | hmem
    · rw [List.foldl_cons, findUser_foldl_update_not_mem rest _ p.id g hnd.1,
        findUser_updateFirstUser_self]
    · have hqp : q.id ≠ p.id := fun he => hnd.1 (he ▸ List.mem_map_of_mem Seat.id hmem)
      rw [List.foldl_cons, ih _ hmem hnd.2, findUser_updateFirstUser_ne _ _ _ _ (Ne.symm hqp)]

/-- The aggregator's effect on the durable record of a seated player: the
first user record whose id matches gets `scoreStats` applied, and nothing
else about the lookup changes (seat ids assumed duplicate-free, which is
the `players` invariant). -/
theorem applyWinnerStats_findUser (users : List User) (players : List Seat) (wid : String)
    (p : Seat) (hp : p ∈ players) (hnd : (players.map Seat.id).Nodup) :
    findUser (applyWinnerStats users players wid) p.id =
      (findUser users p.id).map (fun u => { u with stats := scoreStats players wid p u.stats }) :=
  findUser_foldl_update_mem players users p (scoreStats players wid) hp hnd

/-! ## `vs` dictionary lemmas -/

theorem vsGet_vsBump_self (vs : List (String × VsRec)) (name : String) (w : Bool) :
    vsGet (vsBump vs name w) name =
      (if w then ⟨(vsGet vs name).wins + 1, (vsGet vs name).losses⟩
       else ⟨(vsGet vs name).wins, (vsGet vs name).losses + 1⟩ : VsRec) := by
  unfold vsBump
  rw [show vsGet (alistSet vs name _) name = _ from by unfold vsGet; rw [alistGet_alistSet_self]]
  rfl

theorem vsGet_vsBump_ne (vs : List (String × VsRec)) (name name' : String) (w : Bool)
    (h : name' ≠ name) : vsGet (vsBump vs name w) name' = vsGet vs name' := by
  unfold vsBump vsGet
  rw [alistGet_alistSet_ne _ _ _ _ h]

theorem vsGet_foldl_bump_not_mem (l : List Seat) (vs : List (String × VsRec)) (name : String)
    (w : Bool) (h : name ∉ l.map Seat.username) :
    vsGet (l.foldl (fun acc q => vsBump acc q.username w) vs) name = vsGet vs name := by
  induction l generalizing vs with
  | nil => rfl
  | cons q rest ih =>
    simp only [List.map_cons, List.mem_cons] at h
    push_neg at h
    rw [List.foldl_cons, ih _ h.2, vsGet_vsBump_ne _ _ _ _ h.1]

theorem vsGet_foldl_bump_mem (l : List Seat) (vs : List (String × VsRec)) (op : Seat) (w : Bool)
    (hnd : (l.map Seat.username).Nodup) (hop : op ∈ l) :
    vsGet (l.foldl (fun acc q => vsBump acc q.username w) vs) op.username =
      (if w then ⟨(vsGet vs op.username).wins + 1, (vsGet vs op.username).losses⟩
       else ⟨(vsGet vs op.username).wins, (vsGet vs op.username).losses + 1⟩ : VsRec) := by
  induction l generalizing vs with
  | nil => cases hop
  | cons q rest ih =>
    simp only [List.map_cons, List.nodup_cons] at hnd
    rcases List.mem_cons.1 hop with rfl | hmem
    · rw [List.foldl_cons, vsGet_foldl_bump_not_mem rest _ _ _ hnd.1, vsGet_vsBump_self]
    · have hqp : q.username ≠ op.username :=
        fun he => hnd.1 (he ▸ List.mem_map_of_mem Seat.username hmem)
      rw [List.foldl_cons, ih _ hnd.2 hmem, vsGet_vsBump_ne _ _ _ _ (Ne.symm hqp)]

/-! ## `scoreStats` characterization -/

theorem scoreStats_wins (players : List Seat) (wid : String) (p : Seat) (st : Stats) :
    (scoreStats players wid p st).wins = if p.id = wid then st.wins + 1 else st.wins := by
  unfold scoreStats
  by_cases h : p.id = wid <;> simp [h]

theorem scoreStats_losses (players : List Seat) (wid : String) (p : Seat) (st : Stats) :
    (scoreStats players wid p st).losses = if p.id = wid then st.losses else st.losses + 1 := by
  unfold scoreStats
  by_cases h : p.id = wid <;> simp [h]

theorem scoreStats_vs (players : List Seat) (wid : String) (p : Seat) (st : Stats) :
    (scoreStats players wid p st).vs =
      (players.filter (fun q => q.id != p.id)).foldl
        (fun acc op => vsBump acc op.username (p.id == wid)) st.vs := by
  unfold scoreStats
  by_cases h : p.id = wid <;> simp [h]

/-- The aggregator's per-opponent effect: for every other seated player
`op`, the `vs[op.username]` record gains one win (if `p` is the winner) or
one loss (otherwise).  Seat display names are assumed duplicate-free, as
guaranteed for seats of registered users (usernames are unique). -/
theorem scoreStats_vsGet (players : List Seat) (wid : String) (p : Seat) (st : Stats)
    (op : Seat) (hop : op ∈ players) (hne : op.id ≠ p.id)
    (hnd : (players.map Seat.username).Nodup) :
    vsGet (scoreStats players wid p st).vs op.username =
      (if p.id = wid
       then ⟨(vsGet st.vs op.username).wins + 1, (vsGet st.vs op.username).losses⟩
       else ⟨(vsGet st.vs op.username).wins, (vsGet st.vs op.username).losses + 1⟩ : VsRec) := by
  rw [scoreStats_vs]
  have hsub : ((players.filter (fun q => q.id != p.id)).map Seat.username).Nodup :=
    hnd.sublist ((List.filter_sublist players).map Seat.username)
  have hmem : op ∈ players.filter (fun q => q.id != p.id) :=
    List.mem_filter.2 ⟨hop, by simp [hne]⟩
  rw [vsGet_foldl_bump_mem _ _ _ _ hsub hmem]
  by_cases h : p.id = wid <;> simp [h]

/-! ## Handler branch equations -/

theorem create_none_auth (s : Store) (mp : JValue) (newId : String) :
    create s none mp newId = (.error .unauthorized, s) := rfl

theorem create_ok (s : Store) (u : Auth) (mp : JValue) (newId : String) :
    create s (some u) mp newId =
      (.ok (sanitizeRoom
        { id := newId, hostId := u.id
          players := [{ id := u.id, username := u.username, connected := true }]
          maxPlayers := jsMax2 (jsMin4 (toNumber (if mp.truthy then mp else .num 4)))
          started := false, locked := false, state := .null, revision := 0 } u.id),
       { s with rooms := (alistSet s.rooms newId
          { id := newId, hostId := u.id
            players := [{ id := u.id, username := u.username, connected := true }]
            maxPlayers := jsMax2 (jsMin4 (toNumber (if mp.truthy then mp else .num 4)))
            started := false, locked := false, state := .null, revision := 0 }) }) := rfl

theorem join_none_auth (s : Store) (rid : String) :
    join s none rid = (.error .unauthorized, s) := rfl

theorem join_no_room (s : Store) (u : Auth) (rid : String)
    (h : alistGet s.rooms rid = none) :
    join s (some u) rid = (.error .notFound, s) := by
  unfold join
  rw [h]

theorem join_seated (s : Store) (u : Auth) (rid : String) (room : Room)
    (h : alistGet s.rooms rid = some room)
    (hm : room.players.any (fun p => p.id == u.id) = true) :
    join s (some u) rid =
      (.ok (sanitizeRoom { room with players := setConnectedFirst room.players u.id,
                                     revision := room.revision + 1 } u.id),
       { s with rooms := (alistSet s.rooms rid
          { room with players := setConnectedFirst room.players u.id,
                      revision := room.revision + 1 }) }) := by
  unfold join
  rw [h]
  simp [hm]

theorem join_full (s : Store) (u : Auth) (rid : String) (room : Room)
    (h : alistGet s.rooms rid = some room)
    (hm : room.players.any (fun p => p.id == u.id) = false)
    (hf : (room.started || jsGe room.players.length room.maxPlayers) = true) :
    join s (some u) rid = (.error .roomFull, s) := by
  unfold join
  rw [h]
  simp [hm, hf]

theorem join_new (s : Store) (u : Auth) (rid : String) (room : Room)
    (h : alistGet s.rooms rid = some room)
    (hm : room.players.any (fun p => p.id == u.id) = false)
    (hf : (room.started || jsGe room.players.length room.maxPlayers) = false) :
    join s (some u) rid =
      (.ok (sanitizeRoom
        { room with
            players := room.players ++ [{ id := u.id, username := u.username, connected := true }]
            revision := room.revision + 1 } u.id),
       { s with rooms := (alistSet s.rooms rid
          { room with
              players := room.players ++ [{ id := u.id, username := u.username, connected := true }]
              revision := room.revision + 1 }) }) := by
  unfold join
  rw [h]
  simp [hm, hf]

theorem start_none_auth (s : Store) (rid : String) (bodyState : JValue) :
    start s none rid bodyState = (.error .unauthorized, s) := rfl

theorem start_no_room (s : Store) (u : Auth) (rid : String) (bodyState : JValue)
    (h : alistGet s.rooms rid = none) :
    start s (some u) rid bodyState = (.error .notFound, s) := by
  unfold start
  rw [h]

theorem start_not_host (s : Store) (u : Auth) (rid : String) (bodyState : JValue) (room : Room)
    (h : alistGet s.rooms rid = some room) (hh : room.hostId ≠ u.id) :
    start s (some u) rid bodyState = (.error .forbidden, s) := by
  unfold start
  rw [h]
  simp [hh]

theorem start_bad_count (s : Store) (u : Auth) (rid : String) (bodyState : JValue) (room : Room)
    (h : alistGet s.rooms rid = some room) (hh : room.hostId = u.id)
    (hc : (room.players.length < 2 || room.players.length > 4) = true) :
    start s (some u) rid bodyState = (.error .invalidPlayerCount, s) := by
  unfold start
  rw [h]
  simp [hh, hc]

theorem start_ok (s : Store) (u : Auth) (rid : String) (bodyState : JValue) (room : Room)
    (h : alistGet s.rooms rid = some room) (hh : room.hostId = u.id)
    (hc : (room.players.length < 2 || room.players.length > 4) = false) :
    start s (some u) rid bodyState =
      (.ok (sanitizeRoom
        { room with started := true
                    state := if bodyState.truthy then bodyState else .null
                    revision := room.revision + 1 } u.id),
       { s with rooms := (alistSet s.rooms rid
          { room with started := true
                      state := if bodyState.truthy then bodyState else .null
                      revision := room.revision + 1 }) }) := by
  unfold start
  rw [h]
  simp [hh, hc]

theorem updateState_none_auth (s : Store) (rid : String) (ns : JValue) (w : Option String)
    (hid : String) (now : Nat) :
    updateState s none rid ns w hid now = (.error .unauthorized, s) := rfl

theorem updateState_no_room (s : Store) (u : Auth) (rid : String) (ns : JValue)
    (w : Option String) (hid : String) (now : Nat) (h : alistGet s.rooms rid = none) :
    updateState s (some u) rid ns w hid now = (.error .notFound, s) := by
  unfold updateState
  rw [h]

theorem updateState_not_in_room (s : Store) (u : Auth) (rid : String) (ns : JValue)
    (w : Option String) (hid : String) (now : Nat) (room : Room)
    (h : alistGet s.rooms rid = some room)
    (hm : room.players.any (fun p => p.id == u.id) = false) :
    updateState s (some u) rid ns w hid now = (.error .notInRoom, s) := by
  unfold updateState
  rw [h]
  simp [hm]

/-- The accepted no-winner path: either no `reportWinnerId` was sent, or it
was falsy, or the room is not started, or it matches no seat. -/
theorem updateState_no_winner (s : Store) (u : Auth) (rid : String) (ns : JValue)
    (w : Option String) (hid : String) (now : Nat) (room : Room)
    (h : alistGet s.rooms rid = some room)
    (hm : room.players.any (fun p => p.id == u.id) = true)
    (hw : (match w with
           | none => none
           | some wv =>
             if wv != "" && room.started then room.players.find? (fun p => p.id == wv)
             else none) = (none : Option Seat)) :
    updateState s (some u) rid ns w hid now =
      (.ok (room.revision + 1),
       { s with rooms := (alistSet s.rooms rid
          { room with state := ns, revision := room.revision + 1 }) }) := by
  unfold updateState
  rw [h]
  simp only [hm, if_true]
  rw [hw]

/-- The accepted winner path: a truthy `reportWinnerId` on a started room
resolving to a seated player runs the aggregator, appends one history entry
and reopens the room. -/
theorem updateState_winner (s : Store) (u : Auth) (rid : String) (ns : JValue)
    (wv : String) (hid : String) (now : Nat) (room : Room) (winner : Seat)
    (h : alistGet s.rooms rid = some room)
    (hm : room.players.any (fun p => p.id == u.id) = true)
    (hwv : wv ≠ "") (hst : room.started = true)
    (hfind : room.players.find? (fun p => p.id == wv) = some winner) :
    updateState s (some u) rid ns (some wv) hid now =
      (.ok (room.revision + 1),
       { s with
           users := applyWinnerStats s.users room.players winner.id
           rooms := (alistSet s.rooms rid
             { room with state := ns, revision := room.revision + 1, started := false })
           history := s.history ++
             [{ id := hid, roomId := rid
                players := room.players.map (fun p => p.username)
                winner := winner.username, atTime := now }] }) := by
  unfold updateState
  rw [h]
  simp only [hm, if_true]
  have hwb : (wv != "") = true := by simpa using hwv
  simp only [hwb, hst, Bool.true_and, Bool.and_self, if_true]
  rw [hfind]

theorem readRoom_none_auth (s : Store) (rid : String) :
    readRoom s none rid = (.error .unauthorized, s) := rfl

theorem readRoom_no_room (s : Store) (u : Auth) (rid : String)
    (h : alistGet s.rooms rid = none) :
    readRoom s (some u) rid = (.error .notFound, s) := by
  unfold readRoom
  rw [h]

theorem readRoom_ok (s : Store) (u : Auth) (rid : String) (room : Room)
    (h : alistGet s.rooms rid = some room) :
    readRoom s (some u) rid =
      (.ok (sanitizeRoom { room with players := setConnectedFirst room.players u.id } u.id),
       { s with rooms := (alistSet s.rooms rid
          { room with players := setConnectedFirst room.players u.id }) }) := by
  unfold readRoom
  rw [h]

/-! ## Error paths do not mutate the store -/

theorem create_error_store (s : Store) (auth : Option Auth) (mp : JValue) (newId : String)
    (e : Err) (h : (create s auth mp newId).1 = .error e) :
    (create s auth mp newId).2 = s := by
  cases auth with
  | none => rfl
  | some u => rw [create_ok] at h; simp at h

theorem join_error_store (s : Store) (auth : Option Auth) (rid : String)
    (e : Err) (h : (join s auth rid).1 = .error e) :
    (join s auth rid).2 = s := by
  cases auth with
  | none => rfl
  | some u =>
    cases hr : alistGet s.rooms rid with
    | none => rw [join_no_room s u rid hr]
    | some room =>
      cases hm : room.players.any (fun p => p.id == u.id) with
      | true => rw [join_seated s u rid room hr hm] at h; simp at h
      | false =>
        cases hf : (room.started || jsGe room.players.length room.maxPlayers) with
        | true => rw [join_full s u rid room hr hm hf]
        | false => rw [join_new s u rid room hr hm hf] at h; simp at h

theorem start_error_store (s : Store) (auth : Option Auth) (rid : String) (bs : JValue)
    (e : Err) (h : (start s auth rid bs).1 = .error e) :
    (start s auth rid bs).2 = s := by
  cases auth with
  | none => rfl
  | some u =>
    cases hr : alistGet s.rooms rid with
    | none => rw [start_no_room s u rid bs hr]
    | some room =>
      by_cases hh : room.hostId = u.id
      · cases hc : (room.players.length < 2 || room.players.length > 4) with
        | true => rw [start_bad_count s u rid bs room hr hh hc]
        | false => rw [start_ok s u rid bs room hr hh hc] at h; simp at h
      · rw [start_not_host s u rid bs room hr hh]

theorem updateState_error_store (s : Store) (auth : Option Auth) (rid : String) (ns : JValue)
    (w : Option String) (hid : String) (now : Nat) (e : Err)
    (h : (updateState s auth rid ns w hid now).1 = .error e) :
    (updateState s auth rid ns w hid now).2 = s := by
  cases auth with
  | none => rfl
  | some u =>
    cases hr : alistGet s.rooms rid with
    | none => rw [updateState_no_room s u rid ns w hid now hr]
    | some room =>
      cases hm : room.players.any (fun p => p.id == u.id) with
      | false => rw [updateState_not_in_room s u rid ns w hid now room hr hm]
      | true =>
        cases w with
        | none =>
          rw [updateState_no_winner s u rid ns none hid now room hr hm rfl] at h
          simp at h
        | some wv =>
          cases hcond : (wv != "" && room.started) with
          | false =>
            have hwo : (if wv != "" && room.started
                then room.players.find? (fun p => p.id == wv) else none) = (none : Option Seat) := by
              simp [hcond]
            rw [updateState_no_winner s u rid ns (some wv) hid now room hr hm hwo] at h
            simp at h
          | true =>
            cases hfind : room.players.find? (fun p => p.id == wv) with
            | none =>
              have hwo : (if wv != "" && room.started
                  then room.players.find? (fun p => p.id == wv) else none) = (none : Option Seat) := by
                simp [hcond, hfind]
              rw [updateState_no_winner s u rid ns (some wv) hid now room hr hm hwo] at h
              simp at h
            | some winner =>
              have hwv : wv ≠ "" := by simpa using (Bool.and_eq_true_iff.mp hcond).1
              have hst : room.started = true := (Bool.and_eq_true_iff.mp hcond).2
              rw [updateState_winner s u rid ns wv hid now room winner hr hm hwv hst hfind] at h
              simp at h

theorem readRoom_error_store (s : Store) (auth : Option Auth) (rid : String)
    (e : Err) (h : (readRoom s auth rid).1 = .error e) :
    (readRoom s auth rid).2 = s := by
  cases auth with
  | none => rfl
  | some u =>
    cases hr : alistGet s.rooms rid with
    | none => rw [readRoom_no_room s u rid hr]
    | some room => rw [readRoom_ok s u rid room hr] at h; simp at h

/-- C10: every room operation that returns an error response leaves the
entire store unchanged — no revision bump, no seat appended, no state
replacement, no stats change, no history entry; all guards run before any
mutation. -/
theorem C10_errors_leave_store_unchanged :
    (∀ (s : Store) (auth : Option Auth) (mp : JValue) (newId : String) (e : Err),
       (create s auth mp newId).1 = .error e → (create s auth mp newId).2 = s) ∧
    (∀ (s : Store) (auth : Option Auth) (rid : String) (e : Err),
       (join s auth rid).1 = .error e → (join s auth rid).2 = s) ∧
    (∀ (s : Store) (auth : Option Auth) (rid : String) (bs : JValue) (e : Err),
       (start s auth rid bs).1 = .error e → (start s auth rid bs).2 = s) ∧
    (∀ (s : Store) (auth : Option Auth) (rid : String) (ns : JValue) (w : Option String)
       (hid : String) (now : Nat) (e : Err),
       (updateState s auth rid ns w hid now).1 = .error e →
         (updateState s auth rid ns w hid now).2 = s) ∧
    (∀ (s : Store) (auth : Option Auth) (rid : String) (e : Err),
       (readRoom s auth rid).1 = .error e → (readRoom s auth rid).2 = s) :=
  ⟨create_error_store, join_error_store, start_error_store,
   updateState_error_store, readRoom_error_store⟩

/-- The empty boot store. -/
def emptyStore : Store := { users := [], rooms := [], history := [] }

theorem C10_witness :
    (join emptyStore none "r").1 = .error .unauthorized ∧
    (join emptyStore none "r").2 = emptyStore :=
  ⟨rfl, C10_errors_leave_store_unchanged.2.1 emptyStore none "r" .unauthorized rfl⟩

/-! ## Revision discipline -/

/-- The revision of the room stored under `rid`, when present. -/
def roomRev (s : Store) (rid : String) : Option Nat :=
  (alistGet s.rooms rid).map Room.revision

theorem join_ok_rev (s : Store) (u : Auth) (rid : String) (v : RoomView) (s' : Store)
    (h : join s (some u) rid = (.ok v, s')) :
    ∃ room room', alistGet s.rooms rid = some room ∧ alistGet s'.rooms rid = some room' ∧
      room'.revision = room.revision + 1 := by
  cases hr : alistGet s.rooms rid with
  | none => rw [join_no_room s u rid hr] at h; simp at h
  | some room =>
    cases hm : room.players.any (fun p => p.id == u.id) with
    | true =>
      rw [join_seated s u rid room hr hm] at h
      injection h with h1 h2
      subst h2
      exact ⟨room, _, rfl, alistGet_alistSet_self _ _ _, rfl⟩
    | false =>
      cases hf : (room.started || jsGe room.players.length room.maxPlayers) with
      | true => rw [join_full s u rid room hr hm hf] at h; simp at h
      | false =>
        rw [join_new s u rid room hr hm hf] at h
        injection h with h1 h2
        subst h2
        exact ⟨room, _, rfl, alistGet_alistSet_self _ _ _, rfl⟩

theorem start_ok_rev (s : Store) (u : Auth) (rid : String) (bs : JValue) (v : RoomView)
    (s' : Store) (h : start s (some u) rid bs = (.ok v, s')) :
    ∃ room room', alistGet s.rooms rid = some room ∧ alistGet s'.rooms rid = some room' ∧
      room'.revision = room.revision + 1 := by
  cases hr : alistGet s.rooms rid with
  | none => rw [start_no_room s u rid bs hr] at h; simp at h
  | some room =>
    by_cases hh : room.hostId = u.id
    · cases hc : (room.players.length < 2 || room.players.length > 4) with
      | true => rw [start_bad_count s u rid bs room hr hh hc] at h; simp at h
      | false =>
        rw [start_ok s u rid bs room hr hh hc] at h
        injection h with h1 h2
        subst h2
        exact ⟨room, _, rfl, alistGet_alistSet_self _ _ _, rfl⟩
    · rw [start_not_host s u rid bs room hr hh] at h; simp at h

/-- Inversion of an accepted `updateState`: the target room exists, its
revision is bumped by exactly 1, its `state` is replaced by the payload,
and its seat list is untouched. -/
theorem updateState_ok_shape (s : Store) (u : Auth) (rid : String) (ns : JValue)
    (w : Option String) (hid : String) (now : Nat) (n : Nat) (s' : Store)
    (h : updateState s (some u) rid ns w hid now = (.ok n, s')) :
    ∃ room room', alistGet s.rooms rid = some room ∧ alistGet s'.rooms rid = some room' ∧
      room'.revision = room.revision + 1 ∧ room'.state = ns ∧
      room'.players = room.players := by
  cases hr : alistGet s.rooms rid with
  | none => rw [updateState_no_room s u rid ns w hid now hr] at h; simp at h
  | some room =>
    cases hm : room.players.any (fun p => p.id == u.id) with
    | false => rw [updateState_not_in_room s u rid ns w hid now room hr hm] at h; simp at h
    | true =>
      cases w with
      | none =>
        rw [updateState_no_winner s u rid ns none hid now room hr hm rfl] at h
        injection h with h1 h2
        subst h2
        exact ⟨room, _, rfl, alistGet_alistSet_self _ _ _, rfl, rfl, rfl⟩
      | some wv =>
        cases hcond : (wv != "" && room.started) with
        | false =>
          have hwo : (if wv != "" && room.started
              then room.players.find? (fun p => p.id == wv) else none) = (none : Option Seat) := by
            simp [hcond]
          rw [updateState_no_winner s u rid ns (some wv) hid now room hr hm hwo] at h
          injection h with h1 h2
          subst h2
          exact ⟨room, _, rfl, alistGet_alistSet_self _ _ _, rfl, rfl, rfl⟩
        | true =>
          cases hfind : room.players.find? (fun p => p.id == wv) with
          | none =>
            have hwo : (if wv != "" && room.started
                then room.players.find? (fun p => p.id == wv) else none) = (none : Option Seat) := by
              simp [hcond, hfind]
            rw [updateState_no_winner s u rid ns (some wv) hid now room hr hm hwo] at h
            injection h with h1 h2
            subst h2
            exact ⟨room, _, rfl, alistGet_alistSet_self _ _ _, rfl, rfl, rfl⟩
          | some winner =>
            have hwv : wv ≠ "" := by simpa using (Bool.and_eq_true_iff.mp hcond).1
            have hst : room.started = true := (Bool.and_eq_true_iff.mp hcond).2
            rw [updateState_winner s u rid ns wv hid now room winner hr hm hwv hst hfind] at h
            injection h with h1 h2
            subst h2
            exact ⟨room, _, rfl, alistGet_alistSet_self _ _ _, rfl, rfl, rfl⟩

theorem readRoom_roomRev (s : Store) (auth : Option Auth) (rid rid' : String) :
    roomRev ((readRoom s auth rid).2) rid' = roomRev s rid' := by
  cases auth with
  | none => rfl
  | some u =>
    cases hr : alistGet s.rooms rid with
    | none => rw [readRoom_no_room s u rid hr]
    | some room =>
      rw [readRoom_ok s u rid room hr]
      by_cases he : rid' = rid
      · subst he
        unfold roomRev
        rw [show ({ s with rooms := (alistSet s.rooms rid'
            { room with players := setConnectedFirst room.players u.id }) } : Store).rooms =
          alistSet s.rooms rid' { room with players := setConnectedFirst room.players u.id }
          from rfl]
        rw [alistGet_alistSet_self, hr]
        rfl
      · unfold roomRev
        exact congrArg _ (alistGet_alistSet_ne _ _ _ _ he)

theorem revision_mono_set (rooms : List (String × Room)) (rid0 : String) (room room' : Room)
    (hr : alistGet rooms rid0 = some room) (hrev : room.revision ≤ room'.revision)
    (rid : String) (r r' : Room) (h : alistGet rooms rid = some r)
    (h' : alistGet (alistSet rooms rid0 room') rid = some r') :
    r.revision ≤ r'.revision := by
  rcases alistGet_alistSet_cases _ _ _ _ _ h' with ⟨he, hv⟩ | ⟨hne, hgot⟩
  · subst he
    subst hv
    rw [h] at hr
    cases hr
    exact hrev
  · rw [h] at hgot
    cases hgot
    exact le_refl _

/-- Across any single operation (with fresh room codes on create), the
revision of a room that exists before and after never decreases. -/
theorem applyOp_revision_mono (s : Store) (op : Op) (hfresh : opFresh s op)
    (rid : String) (r r' : Room) (h : alistGet s.rooms rid = some r)
    (h' : alistGet (applyOp s op).rooms rid = some r') : r.revision ≤ r'.revision := by
  cases op with
  | create auth mp newId =>
    cases auth with
    | none => rw [show applyOp s (.create none mp newId) = s from rfl] at h'; rw [h] at h'; cases h'; exact le_refl _
    | some u =>
      rw [show applyOp s (.create (some u) mp newId) = (create s (some u) mp newId).2 from rfl,
        create_ok] at h'
      rcases alistGet_alistSet_cases _ _ _ _ _ h' with ⟨he, _⟩ | ⟨_, hgot⟩
      · subst he
        have hf2 : alistGet s.rooms rid = none := hfresh
        rw [h] at hf2
        cases hf2
      · rw [h] at hgot
        cases hgot
        exact le_refl _
  | join auth rid0 =>
    cases auth with
    | none => rw [show applyOp s (.join none rid0) = s from rfl] at h'; rw [h] at h'; cases h'; exact le_refl _
    | some u =>
      have happ : applyOp s (.join (some u) rid0) = (join s (some u) rid0).2 := rfl
      rw [happ] at h'
      cases hr : alistGet s.rooms rid0 with
      | none => rw [join_no_room s u rid0 hr] at h'; rw [h] at h'; cases h'; exact le_refl _
      | some room =>
        cases hm : room.players.any (fun p => p.id == u.id) with
        | true =>
          rw [join_seated s u rid0 room hr hm] at h'
          exact revision_mono_set s.rooms rid0 room _ hr (Nat.le_succ _) rid r r' h h'
        | false =>
          cases hf : (room.started || jsGe room.players.length room.maxPlayers) with
          | true => rw [join_full s u rid0 room hr hm hf] at h'; rw [h] at h'; cases h'; exact le_refl _
          | false =>
            rw [join_new s u rid0 room hr hm hf] at h'
            exact revision_mono_set s.rooms rid0 room _ hr (Nat.le_succ _) rid r r' h h'
  | start auth rid0 bs =>
    cases auth with
    | none => rw [show applyOp s (.start none rid0 bs) = s from rfl] at h'; rw [h] at h'; cases h'; exact le_refl _
    | some u =>
      have happ : applyOp s (.start (some u) rid0 bs) = (start s (some u) rid0 bs).2 := rfl
      rw [happ] at h'
      cases hr : alistGet s.rooms rid0 with
      | none => rw [start_no_room s u rid0 bs hr] at h'; rw [h] at h'; cases h'; exact le_refl _
      | some room =>
        by_cases hh : room.hostId = u.id
        · cases hc : (room.players.length < 2 || room.players.length > 4) with
          | true => rw [start_bad_count s u rid0 bs room hr hh hc] at h'; rw [h] at h'; cases h'; exact le_refl _
          | false =>
            rw [start_ok s u rid0 bs room hr hh hc] at h'
            exact revision_mono_set s.rooms rid0 room _ hr (Nat.le_succ _) rid r r' h h'
        · rw [start_not_host s u rid0 bs room hr hh] at h'; rw [h] at h'; cases h'; exact le_refl _
  | update auth rid0 ns w hid now =>
    cases auth with
    | none => rw [show applyOp s (.update none rid0 ns w hid now) = s from rfl] at h'; rw [h] at h'; cases h'; exact le_refl _
    | some u =>
      have happ : applyOp s (.update (some u) rid0 ns w hid now) =
          (updateState s (some u) rid0 ns w hid now).2 := rfl
      rw [happ] at h'
      cases hr : alistGet s.rooms rid0 with
      | none => rw [updateState_no_room s u rid0 ns w hid now hr] at h'; rw [h] at h'; cases h'; exact le_refl _
      | some room =>
        cases hm : room.players.any (fun p => p.id == u.id) with
        | false => rw [updateState_not_in_room s u rid0 ns w hid now room hr hm] at h'; rw [h] at h'; cases h'; exact le_refl _
        | true =>
          cases w with
          | none =>
            rw [updateState_no_winner s u rid0 ns none hid now room hr hm rfl] at h'
            exact revision_mono_set s.rooms rid0 room _ hr (Nat.le_succ _) rid r r' h h'
          | some wv =>
            cases hcond : (wv != "" && room.started) with
            | false =>
              have hwo : (if wv != "" && room.started
                  then room.players.find? (fun p => p.id == wv) else none) = (none : Option Seat) := by
                simp [hcond]
              rw [updateState_no_winner s u rid0 ns (some wv) hid now room hr hm hwo] at h'
              exact revision_mono_set s.rooms rid0 room _ hr (Nat.le_succ _) rid r r' h h'
            | true =>
              cases hfind : room.players.find? (fun p => p.id == wv) with
              | none =>
                have hwo : (if wv != "" && room.started
                    then room.players.find? (fun p => p.id == wv) else none) = (none : Option Seat) := by
                  simp [hcond, hfind]
                rw [updateState_no_winner s u rid0 ns (some wv) hid now room hr hm hwo] at h'
                exact revision_mono_set s.rooms rid0 room _ hr (Nat.le_succ _) rid r r' h h'
              | some winner =>
                have hwv : wv ≠ "" := by simpa using (Bool.and_eq_true_iff.mp hcond).1
                have hst : room.started = true := (Bool.and_eq_true_iff.mp hcond).2
                rw [updateState_winner s u rid0 ns wv hid now room winner hr hm hwv hst hfind] at h'
                exact revision_mono_set s.rooms rid0 room _ hr (Nat.le_succ _) rid r r' h h'
  | read auth rid0 =>
    have happ : applyOp s (.read auth rid0) = (readRoom s auth rid0).2 := rfl
    rw [happ] at h'
    have := readRoom_roomRev s auth rid0 rid
    unfold roomRev at this
    rw [h, h'] at this
    have h3 : some r'.revision = some r.revision := this
    exact (Option.some.inj h3).symm.le

/-- C1: every accepted mutating operation (join, start, state update) bumps
the target room's revision by exactly 1; `Read` changes no room's revision;
and across any sequence of operations (room codes drawn fresh on create) a
room's revision never decreases or resets. -/
theorem C1_revision_discipline :
    (∀ (s : Store) (u : Auth) (rid : String) (v : RoomView) (s' : Store),
       join s (some u) rid = (.ok v, s') →
       ∃ room room', alistGet s.rooms rid = some room ∧
         alistGet s'.rooms rid = some room' ∧ room'.revision = room.revision + 1) ∧
    (∀ (s : Store) (u : Auth) (rid : String) (bs : JValue) (v : RoomView) (s' : Store),
       start s (some u) rid bs = (.ok v, s') →
       ∃ room room', alistGet s.rooms rid = some room ∧
         alistGet s'.rooms rid = some room' ∧ room'.revision = room.revision + 1) ∧
    (∀ (s : Store) (u : Auth) (rid : String) (ns : JValue) (w : Option String)
       (hid : String) (now : Nat) (n : Nat) (s' : Store),
       updateState s (some u) rid ns w hid now = (.ok n, s') →
       ∃ room room', alistGet s.rooms rid = some room ∧
         alistGet s'.rooms rid = some room' ∧ room'.revision = room.revision + 1) ∧
    (∀ (s : Store) (auth : Option Auth) (rid rid' : String),
       roomRev ((readRoom s auth rid).2) rid' = roomRev s rid') ∧
    (∀ (s : Store) (op : Op), opFresh s op →
       ∀ (rid : String) (r r' : Room), alistGet s.rooms rid = some r →
         alistGet (applyOp s op).rooms rid = some r' → r.revision ≤ r'.revision) :=
  ⟨join_ok_rev, start_ok_rev,
   fun s u rid ns w hid now n s' h => by
     obtain ⟨room, room', h1, h2, h3, _, _⟩ := updateState_ok_shape s u rid ns w hid now n s' h
     exact ⟨room, room', h1, h2, h3⟩,
   readRoom_roomRev, applyOp_revision_mono⟩

/-- A sample seated host, room and store used to witness the theorems on a
concrete input. -/
def hostSeat : Seat := { id := "h", username := "H", connected := true }

def roomA : Room :=
  { id := "r", hostId := "h", players := [hostSeat], maxPlayers := .int 4
    started := false, locked := false, state := .null, revision := 0 }

def storeA : Store := { users := [], rooms := [("r", roomA)], history := [] }

theorem C1_witness :
    ∃ room room', alistGet storeA.rooms "r" = some room ∧
      alistGet ((join storeA (some ⟨"h", "H"⟩) "r").2).rooms "r" = some room' ∧
      room'.revision = room.revision + 1 :=
  C1_revision_discipline.1 storeA ⟨"h", "H"⟩ "r" _ _ rfl

/-! ## Shape of the room registry after one operation -/

/-- After any single operation the registry is unchanged, or exactly one
entry is written, whose seat list is: the sole host seat (create), a
reconnect (`setConnectedFirst`), an appended fresh seat (join of a new
caller), or the unchanged seat list (start / state update). -/
theorem applyOp_rooms_spec (s : Store) (op : Op) :
    (applyOp s op).rooms = s.rooms ∨
    ∃ rid0 room', (applyOp s op).rooms = alistSet s.rooms rid0 room' ∧
      ((∃ u : Auth,
          room'.players = [{ id := u.id, username := u.username, connected := true }]) ∨
       (∃ (room : Room) (u : Auth), alistGet s.rooms rid0 = some room ∧
          room'.players = setConnectedFirst room.players u.id) ∨
       (∃ (room : Room) (u : Auth), alistGet s.rooms rid0 = some room ∧
          room.players.any (fun p => p.id == u.id) = false ∧
          room'.players = room.players ++ [{ id := u.id, username := u.username, connected := true }]) ∨
       (∃ (room : Room), alistGet s.rooms rid0 = some room ∧ room'.players = room.players)) := by
  cases op with
  | create auth mp newId =>
    cases auth with
    | none => exact Or.inl rfl
    | some u =>
      right
      rw [show applyOp s (.create (some u) mp newId) = (create s (some u) mp newId).2 from rfl,
          create_ok]
      exact ⟨newId, _, rfl, Or.inl ⟨u, rfl⟩⟩
  | join auth rid0 =>
    cases auth with
    | none => exact Or.inl rfl
    | some u =>
      have happ : applyOp s (.join (some u) rid0) = (join s (some u) rid0).2 := rfl
      cases hr : alistGet s.rooms rid0 with
      | none => left; rw [happ, join_no_room s u rid0 hr]
      | some room =>
        cases hm : room.players.any (fun p => p.id == u.id) with
        | true =>
          right
          rw [happ, join_seated s u rid0 room hr hm]
          exact ⟨rid0, _, rfl, Or.inr (Or.inl ⟨room, u, hr, rfl⟩)⟩
        | false =>
          cases hf : (room.started || jsGe room.players.length room.maxPlayers) with
          | true => left; rw [happ, join_full s u rid0 room hr hm hf]
          | false =>
            right
            rw [happ, join_new s u rid0 room hr hm hf]
            exact ⟨rid0, _, rfl, Or.inr (Or.inr (Or.inl ⟨room, u, hr, hm, rfl⟩))⟩
  | start auth rid0 bs =>
    cases auth with
    | none => exact Or.inl rfl
    | some u =>
      have happ : applyOp s (.start (some u) rid0 bs) = (start s (some u) rid0 bs).2 := rfl
      cases hr : alistGet s.rooms rid0 with
      | none => left; rw [happ, start_no_room s u rid0 bs hr]
      | some room =>
        by_cases hh : room.hostId = u.id
        · cases hc : (room.players.length < 2 || room.players.length > 4) with
          | true => left; rw [happ, start_bad_count s u rid0 bs room hr hh hc]
          | false =>
            right
            rw [happ, start_ok s u rid0 bs room hr hh hc]
            exact ⟨rid0, _, rfl, Or.inr (Or.inr (Or.inr ⟨room, hr, rfl⟩))⟩
        · left; rw [happ, start_not_host s u rid0 bs room hr hh]
  | update auth rid0 ns w hid now =>
    cases auth with
    | none => exact Or.inl rfl
    | some u =>
      have happ : applyOp s (.update (some u) rid0 ns w hid now) =
          (updateState s (some u) rid0 ns w hid now).2 := rfl
      cases hr : alistGet s.rooms rid0 with
      | none => left; rw [happ, updateState_no_room s u rid0 ns w hid now hr]
      | some room =>
        cases hm : room.players.any (fun p => p.id == u.id) with
        | false => left; rw [happ, updateState_not_in_room s u rid0 ns w hid now room hr hm]
        | true =>
          cases w with
          | none =>
            right
            rw [happ, updateState_no_winner s u rid0 ns none hid now room hr hm rfl]
            exact ⟨rid0, _, rfl, Or.inr (Or.inr (Or.inr ⟨room, hr, rfl⟩))⟩
          | some wv =>
            cases hcond : (wv != "" && room.started) with
            | false =>
              have hwo : (if wv != "" && room.started
                  then room.players.find? (fun p => p.id == wv) else none) = (none : Option Seat) := by
                simp [hcond]
              right
              rw [happ, updateState_no_winner s u rid0 ns (some wv) hid now room hr hm hwo]
              exact ⟨rid0, _, rfl, Or.inr (Or.inr (Or.inr ⟨room, hr, rfl⟩))⟩
            | true =>
              cases hfind : room.players.find? (fun p => p.id == wv) with
              | none =>
                have hwo : (if wv != "" && room.started
                    then room.players.find? (fun p => p.id == wv) else none) = (none : Option Seat) := by
                  simp [hcond, hfind]
                right
                rw [happ, updateState_no_winner s u rid0 ns (some wv) hid now room hr hm hwo]
                exact ⟨rid0, _, rfl, Or.inr (Or.inr (Or.inr ⟨room, hr, rfl⟩))⟩
              | some winner =>
                have hwv : wv ≠ "" := by simpa using (Bool.and_eq_true_iff.mp hcond).1
                have hst : room.started = true := (Bool.and_eq_true_iff.mp hcond).2
                right
                rw [happ, updateState_winner s u rid0 ns wv hid now room winner hr hm hwv hst hfind]
                exact ⟨rid0, _, rfl, Or.inr (Or.inr (Or.inr ⟨room, hr, rfl⟩))⟩
  | read auth rid0 =>
    cases auth with
    | none => exact Or.inl rfl
    | some u =>
      have happ : applyOp s (.read (some u) rid0) = (readRoom s (some u) rid0).2 := rfl
      cases hr : alistGet s.rooms rid0 with
      | none => left; rw [happ, readRoom_no_room s u rid0 hr]
      | some room =>
        right
        rw [happ, readRoom_ok s u rid0 room hr]
        exact ⟨rid0, _, rfl, Or.inr (Or.inl ⟨room, u, hr, rfl⟩)⟩

/-! ## Store invariants -/

/-- No room ever holds two seats with the same user identifier. -/
def PlayersNodup (s : Store) : Prop :=
  ∀ rid r, alistGet s.rooms rid = some r → (r.players.map Seat.id).Nodup

/-- Every seat of every room has `connected = true`. -/
def AllConnected (s : Store) : Prop :=
  ∀ rid r, alistGet s.rooms rid = some r → ∀ p ∈ r.players, p.connected = true

theorem applyOp_playersNodup (s : Store) (op : Op) (h : PlayersNodup s) :
    PlayersNodup (applyOp s op) := by
  rcases applyOp_rooms_spec s op with heq | ⟨rid0, room', heq, hshape⟩
  · intro rid r hr
    rw [heq] at hr
    exact h rid r hr
  · intro rid r hr
    rw [heq] at hr
    rcases alistGet_alistSet_cases _ _ _ _ _ hr with ⟨he, hv⟩ | ⟨hne, hgot⟩
    · subst hv
      rcases hshape with ⟨u, hp⟩ | ⟨room, u, hroom, hp⟩ | ⟨room, u, hroom, hany, hp⟩ |
        ⟨room, hroom, hp⟩
      · rw [hp]; simp
      · rw [hp, setConnectedFirst_map_id]; exact h rid0 room hroom
      · rw [hp, List.map_append]
        have hnd := h rid0 room hroom
        have hnotin : u.id ∉ room.players.map Seat.id := by
          intro hin
          rcases List.mem_map.1 hin with ⟨p, hpmem, hpid⟩
          have hx : room.players.any (fun p => p.id == u.id) = true :=
            List.any_eq_true.2 ⟨p, hpmem, by simp [hpid]⟩
          rw [hany] at hx
          cases hx
        simp [List.nodup_append, hnd, hnotin]
      · rw [hp]; exact h rid0 room hroom
    · exact h rid r hgot

theorem applyOp_allConnected (s : Store) (op : Op) (h : AllConnected s) :
    AllConnected (applyOp s op) := by
  rcases applyOp_rooms_spec s op with heq | ⟨rid0, room', heq, hshape⟩
  · intro rid r hr
    rw [heq] at hr
    exact h rid r hr
  · intro rid r hr
    rw [heq] at hr
    rcases alistGet_alistSet_cases _ _ _ _ _ hr with ⟨he, hv⟩ | ⟨hne, hgot⟩
    · subst hv
      rcases hshape with ⟨u, hp⟩ | ⟨room, u, hroom, hp⟩ | ⟨room, u, hroom, hany, hp⟩ |
        ⟨room, hroom, hp⟩
      · rw [hp]
        intro p hp2
        rcases List.mem_singleton.1 hp2 with rfl
        rfl
      · rw [hp]
        exact setConnectedFirst_all_connected _ _ (h rid0 room hroom)
      · rw [hp]
        intro p hp2
        rcases List.mem_append.1 hp2 with hmem | hmem
        · exact h rid0 room hroom p hmem
        · rcases List.mem_singleton.1 hmem with rfl
          rfl
      · rw [hp]
        exact h rid0 room hroom
    · exact h rid r hgot

theorem reachable_playersNodup (s : Store) (h : Reachable s) : PlayersNodup s := by
  induction h with
  | init users => intro rid r hr; simp [alistGet] at hr
  | step op hre hfresh ih => exact applyOp_playersNodup _ _ ih

theorem reachable_allConnected (s : Store) (h : Reachable s) : AllConnected s := by
  induction h with
  | init users => intro rid r hr; simp [alistGet] at hr
  | step op hre hfresh ih => exact applyOp_allConnected _ _ ih

/-- `find?` skips a prefix none of whose elements satisfy the predicate. -/
theorem find?_append_left_none {α : Type} (l₁ l₂ : List α) (p : α → Bool)
    (h : l₁.any p = false) : (l₁ ++ l₂).find? p = l₂.find? p := by
  induction l₁ with
  | nil => rfl
  | cons x xs ih =>
    simp only [List.any_cons, Bool.or_eq_false_iff] at h
    rw [List.cons_append, List.find?_cons_of_neg _ (by simp [h.1]), ih h.2]

/-- After an accepted join, the caller's seat in the stored room is
connected. -/
theorem join_connected_after (s : Store) (u : Auth) (rid : String) (v : RoomView) (s' : Store)
    (h : join s (some u) rid = (.ok v, s')) (r' : Room)
    (hr' : alistGet s'.rooms rid = some r') :
    ∃ seat, r'.players.find? (fun p => p.id == u.id) = some seat ∧ seat.connected = true := by
  cases hr : alistGet s.rooms rid with
  | none => rw [join_no_room s u rid hr] at h; simp at h
  | some room =>
    cases hm : room.players.any (fun p => p.id == u.id) with
    | true =>
      rw [join_seated s u rid room hr hm] at h
      injection h with h1 h2
      subst h2
      rw [alistGet_alistSet_self] at hr'
      cases hr'
      rw [show ({ room with players := setConnectedFirst room.players u.id, revision := room.revision + 1 } : Room).players = setConnectedFirst room.players u.id from rfl]
      rw [find?_setConnectedFirst_self]
      rcases List.any_eq_true.1 hm with ⟨p, hpmem, hpid⟩
      have hsome : (room.players.find? (fun q => q.id == u.id)).isSome := by
        rw [List.find?_isSome]
        exact ⟨p, hpmem, hpid⟩
      rcases Option.isSome_iff_exists.1 hsome with ⟨q, hq⟩
      rw [hq]
      exact ⟨_, rfl, rfl⟩
    | false =>
      cases hf : (room.started || jsGe room.players.length room.maxPlayers) with
      | true => rw [join_full s u rid room hr hm hf] at h; simp at h
      | false =>
        rw [join_new s u rid room hr hm hf] at h
        injection h with h1 h2
        subst h2
        rw [alistGet_alistSet_self] at hr'
        cases hr'
        rw [show ({ room with players := room.players ++ [{ id := u.id, username := u.username, connected := true }], revision := room.revision + 1 } : Room).players = room.players ++ [{ id := u.id, username := u.username, connected := true }] from rfl]
        rw [find?_append_left_none _ _ _ hm]
        rw [List.find?_cons_of_pos _ (by simp)]
        exact ⟨_, rfl, rfl⟩

/-- After a read by a seated caller, that caller's seat in the stored room
is connected. -/
theorem read_connected_after (s : Store) (u : Auth) (rid : String) (room : Room)
    (hr : alistGet s.rooms rid = some room)
    (hm : room.players.any (fun p => p.id == u.id) = true) (r' : Room)
    (hr' : alistGet ((readRoom s (some u) rid).2).rooms rid = some r') :
    ∃ seat, r'.players.find? (fun p => p.id == u.id) = some seat ∧ seat.connected = true := by
  rw [readRoom_ok s u rid room hr] at hr'
  rw [show ({ s with rooms := (alistSet s.rooms rid { room with players := setConnectedFirst room.players u.id }) } : Store).rooms = alistSet s.rooms rid { room with players := setConnectedFirst room.players u.id } from rfl] at hr'
  rw [alistGet_alistSet_self] at hr'
  cases hr'
  rw [show ({ room with players := setConnectedFirst room.players u.id } : Room).players = setConnectedFirst room.players u.id from rfl]
  rw [find?_setConnectedFirst_self]
  rcases List.any_eq_true.1 hm with ⟨p, hpmem, hpid⟩
  have hsome : (room.players.find? (fun q => q.id == u.id)).isSome := by
    rw [List.find?_isSome]
    exact ⟨p, hpmem, hpid⟩
  rcases Option.isSome_iff_exists.1 hsome with ⟨q, hq⟩
  rw [hq]
  exact ⟨_, rfl, rfl⟩

/-- C2: in every reachable store no room holds two seats with the same
user identifier, and a join by an already-seated user appends no seat —
the seat count, ids and usernames are unchanged, the revision is bumped,
and (given the invariant) exactly that user's seat is marked connected. -/
theorem C2_no_duplicate_seats :
    (∀ s : Store, Reachable s → ∀ rid r, alistGet s.rooms rid = some r →
       (r.players.map Seat.id).Nodup) ∧
    (∀ (s : Store) (u : Auth) (rid : String) (room : Room),
       alistGet s.rooms rid = some room →
       room.players.any (fun p => p.id == u.id) = true →
       ∃ room', join s (some u) rid =
           (.ok (sanitizeRoom room' u.id), { s with rooms := alistSet s.rooms rid room' }) ∧
         room'.players.length = room.players.length ∧
         room'.players.map Seat.id = room.players.map Seat.id ∧
         room'.players.map Seat.username = room.players.map Seat.username ∧
         room'.revision = room.revision + 1 ∧
         ((room.players.map Seat.id).Nodup →
           room'.players = room.players.map
             (fun p => if p.id == u.id then { p with connected := true } else p))) := by
  constructor
  · exact fun s hre => reachable_playersNodup s hre
  · intro s u rid room hr hm
    exact ⟨_, join_seated s u rid room hr hm, setConnectedFirst_length _ _,
      setConnectedFirst_map_id _ _, setConnectedFirst_map_username _ _, rfl,
      fun hnd => setConnectedFirst_eq_map_of_nodup _ _ hnd⟩

theorem C2_witness :
    (roomA.players.map Seat.id).Nodup :=
  C2_no_duplicate_seats.1 (applyOp emptyStore (.create (some ⟨"h", "H"⟩) JValue.null "r"))
    (Reachable.step (.create (some ⟨"h", "H"⟩) JValue.null "r") (Reachable.init []) rfl)
    "r" roomA rfl

/-- C9: no operation ever sets a seat's `connected` flag to false (every
operation preserves all-connected); in every reachable store every seat is
connected — so after any authenticated read or accepted mutation by a
seat's user, that seat is connected; and join and read explicitly mark the
caller's own seat connected. -/
theorem C9_connected_flag :
    (∀ (s : Store) (op : Op), AllConnected s → AllConnected (applyOp s op)) ∧
    (∀ s : Store, Reachable s → AllConnected s) ∧
    (∀ (s : Store) (u : Auth) (rid : String) (v : RoomView) (s' : Store),
       join s (some u) rid = (.ok v, s') → ∀ r', alistGet s'.rooms rid = some r' →
       ∃ seat, r'.players.find? (fun p => p.id == u.id) = some seat ∧
         seat.connected = true) ∧
    (∀ (s : Store) (u : Auth) (rid : String) (room : Room),
       alistGet s.rooms rid = some room →
       room.players.any (fun p => p.id == u.id) = true →
       ∀ r', alistGet ((readRoom s (some u) rid).2).rooms rid = some r' →
       ∃ seat, r'.players.find? (fun p => p.id == u.id) = some seat ∧
         seat.connected = true) :=
  ⟨applyOp_allConnected, fun s hre => reachable_allConnected s hre,
   fun s u rid v s' h r' hr' => join_connected_after s u rid v s' h r' hr',
   fun s u rid room hr hm r' hr' => read_connected_after s u rid room hr hm r' hr'⟩

theorem C9_witness :
    hostSeat.connected = true :=
  C9_connected_flag.2.1 (applyOp emptyStore (.create (some ⟨"h", "H"⟩) JValue.null "r"))
    (Reachable.step (.create (some ⟨"h", "H"⟩) JValue.null "r") (Reachable.init []) rfl)
    "r" roomA rfl hostSeat (List.mem_singleton.2 rfl)

/-- A started two-player room whose host is seated: a rejoin by the host
succeeds even though `started = true`. -/
def roomB : Room :=
  { id := "r", hostId := "h", players := [hostSeat], maxPlayers := .int 2
    started := true, locked := false, state := .null, revision := 5 }

def storeB : Store := { users := [], rooms := [("r", roomB)], history := [] }

/-- C3 (counterexample): for an already-seated caller, join does NOT fail
with RoomFull even though the room is started — the claim's iff, read over
every caller, is false. -/
theorem C3_counterexample :
    roomB.started = true ∧ roomB.maxPlayers = JSNum.int 2 ∧
    (join storeB (some ⟨"h", "H"⟩) "r").1 ≠ Except.error Err.roomFull := by
  refine ⟨rfl, rfl, ?_⟩
  intro h
  rw [join_seated storeB ⟨"h", "H"⟩ "r" roomB rfl rfl] at h
  exact Except.noConfusion h

/-- C3 (amended): for a caller not already seated in a room with
`maxPlayers` in [2,4], join fails with RoomFull iff the room is started or
full; otherwise it appends a new connected seat and bumps the revision. -/
theorem C3_roomFull_iff (s : Store) (u : Auth) (rid : String) (room : Room) (m : Int)
    (hr : alistGet s.rooms rid = some room) (hmax : room.maxPlayers = .int m)
    (h2 : 2 ≤ m) (h4 : m ≤ 4)
    (hm : room.players.any (fun p => p.id == u.id) = false) :
    ((join s (some u) rid).1 = .error .roomFull ↔
      (room.started = true ∨ m ≤ (room.players.length : Int))) ∧
    (room.started = false → ¬(m ≤ (room.players.length : Int)) →
      join s (some u) rid =
        (.ok (sanitizeRoom { room with players := room.players ++ [{ id := u.id, username := u.username, connected := true }], revision := room.revision + 1 } u.id),
         { s with rooms := alistSet s.rooms rid { room with players := room.players ++ [{ id := u.id, username := u.username, connected := true }], revision := room.revision + 1 } })) := by
  have hgeq : jsGe room.players.length room.maxPlayers =
      decide (m ≤ (room.players.length : Int)) := by
    rw [hmax]
    simp [jsGe, ge_iff_le]
  cases hf : (room.started || jsGe room.players.length room.maxPlayers) with
  | true =>
    have hcase : room.started = true ∨ m ≤ (room.players.length : Int) := by
      have hf2 := hf
      simp only [Bool.or_eq_true] at hf2
      rcases hf2 with h | h
      · exact Or.inl h
      · right
        rw [hgeq] at h
        exact of_decide_eq_true h
    constructor
    · rw [join_full s u rid room hr hm hf]
      simpa using hcase
    · intro hns hnl
      rcases hcase with h | h
      · rw [hns] at h; cases h
      · exact absurd h hnl
  | false =>
    have hf2 := hf
    simp only [Bool.or_eq_false_iff] at hf2
    have hns : room.started = false := hf2.1
    have hnl : ¬(m ≤ (room.players.length : Int)) := by
      have := hf2.2
      rw [hgeq] at this
      exact of_decide_eq_false this
    constructor
    · rw [join_new s u rid room hr hm hf]
      constructor
      · intro h; simp at h
      · intro hor
        rcases hor with h | h
        · rw [hns] at h; cases h
        · exact absurd h hnl
    · intro _ _
      exact join_new s u rid room hr hm hf

theorem C3_witness :
    (((join storeA (some ⟨"p2", "P2"⟩) "r").1 = Except.error Err.roomFull) ↔
      (roomA.started = true ∨ (4 : Int) ≤ (roomA.players.length : Int))) ∧
    (roomA.started = false → ¬((4 : Int) ≤ (roomA.players.length : Int)) →
      join storeA (some ⟨"p2", "P2"⟩) "r" =
        (.ok (sanitizeRoom { roomA with players := roomA.players ++ [{ id := "p2", username := "P2", connected := true }], revision := roomA.revision + 1 } "p2"),
         { storeA with rooms := alistSet storeA.rooms "r" { roomA with players := roomA.players ++ [{ id := "p2", username := "P2", connected := true }], revision := roomA.revision + 1 } })) :=
  C3_roomFull_iff storeA ⟨"p2", "P2"⟩ "r" roomA 4 rfl rfl (by decide) (by decide) rfl

/-- A second seated player, and an open two-player room ready to start. -/
def seatP : Seat := { id := "p", username := "P", connected := true }

def roomC : Room :=
  { id := "r", hostId := "h", players := [hostSeat, seatP], maxPlayers := .int 2
    started := false, locked := false, state := .null, revision := 2 }

def storeC : Store := { users := [], rooms := [("r", roomC)], history := [] }

/-- C4 (counterexample): a successful Start with the falsy initial state
`false` stores `null`, not the supplied value — `state = state || null`. -/
theorem C4_counterexample :
    (start storeC (some ⟨"h", "H"⟩) "r" (JValue.bool false)).1 =
      Except.ok (sanitizeRoom { roomC with started := true, state := JValue.null, revision := roomC.revision + 1 } "h") ∧
    (alistGet ((start storeC (some ⟨"h", "H"⟩) "r" (JValue.bool false)).2).rooms "r").map Room.state =
      some JValue.null ∧
    JValue.null ≠ JValue.bool false :=
  ⟨rfl, rfl, fun h => JValue.noConfusion h⟩

/-- C4 (amended): for an existing room and authenticated caller, Start
succeeds iff the caller is the host and `2 ≤ players.length ≤ 4` — failing
with Forbidden for a non-host (checked first) and InvalidPlayerCount for a
bad count; on success `started := true`, `state` becomes the supplied
initial state when truthy and `null` otherwise, and the revision is bumped.
The success case carries no condition on `started`: a re-entrant Start is
accepted and simply overwrites the state. -/
theorem C4_start_spec (s : Store) (u : Auth) (rid : String) (bs : JValue) (room : Room)
    (hr : alistGet s.rooms rid = some room) :
    (room.hostId ≠ u.id → start s (some u) rid bs = (.error .forbidden, s)) ∧
    (room.hostId = u.id → (room.players.length < 2 ∨ room.players.length > 4) →
      start s (some u) rid bs = (.error .invalidPlayerCount, s)) ∧
    (room.hostId = u.id → 2 ≤ room.players.length → room.players.length ≤ 4 →
      start s (some u) rid bs =
        (.ok (sanitizeRoom { room with started := true, state := if bs.truthy then bs else .null, revision := room.revision + 1 } u.id),
         { s with rooms := alistSet s.rooms rid { room with started := true, state := if bs.truthy then bs else .null, revision := room.revision + 1 } })) := by
  refine ⟨fun hh => start_not_host s u rid bs room hr hh, fun hh hc => ?_, fun hh hge hle => ?_⟩
  · have hcb : (room.players.length < 2 || room.players.length > 4) = true := by
      rcases hc with h | h <;> simp [h]
    exact start_bad_count s u rid bs room hr hh hcb
  · have hcb : (room.players.length < 2 || room.players.length > 4) = false := by
      simp only [Bool.or_eq_false_iff, decide_eq_false_iff_not]
      exact ⟨by omega, by omega⟩
    exact start_ok s u rid bs room hr hh hcb

theorem C4_witness :
    start storeC (some ⟨"h", "H"⟩) "r" JValue.null =
      (.ok (sanitizeRoom { roomC with started := true, state := JValue.null, revision := roomC.revision + 1 } "h"),
       { storeC with rooms := alistSet storeC.rooms "r" { roomC with started := true, state := JValue.null, revision := roomC.revision + 1 } }) :=
  (C4_start_spec storeC ⟨"h", "H"⟩ "r" JValue.null roomC rfl).2.2 rfl (by decide) (by decide)

/-- C8: `Math.max(2, Math.min(4, Number("abc")))` is `NaN`, so `create`
with a non-numeric `maxPlayers` stores `NaN` instead of clamping into
[2,4]; every capacity comparison against it is then false, so the join
guard `players.length >= maxPlayers` never fires. -/
theorem C8_create_nan_maxPlayers :
    (alistGet ((create emptyStore (some ⟨"h", "H"⟩) (JValue.str "abc") "r1").2.rooms) "r1").map
        Room.maxPlayers = some JSNum.nan ∧
    jsGe 99 JSNum.nan = false :=
  ⟨rfl, rfl⟩

/-- C5: an accepted winner report applies the everyone-vs-everyone policy:
the room reopens (`started = false`) and every seated player's durable
record — skipped silently when absent — gains a win (winner) or a loss
(loser), plus one symmetric `vs[op.username]` increment against every
other seated player. -/
theorem C5_everyone_vs_everyone (s : Store) (u : Auth) (rid : String) (ns : JValue)
    (wv : String) (hid : String) (now : Nat) (room : Room) (winner : Seat)
    (hr : alistGet s.rooms rid = some room)
    (hm : room.players.any (fun p => p.id == u.id) = true)
    (hwv : wv ≠ "") (hst : room.started = true)
    (hfind : room.players.find? (fun p => p.id == wv) = some winner)
    (hndid : (room.players.map Seat.id).Nodup)
    (hndname : (room.players.map Seat.username).Nodup) :
    ((alistGet ((updateState s (some u) rid ns (some wv) hid now).2).rooms rid).map
        Room.started = some false) ∧
    (∀ p ∈ room.players, ∀ usr, findUser s.users p.id = some usr →
       ∃ usr', findUser ((updateState s (some u) rid ns (some wv) hid now).2).users p.id =
           some usr' ∧
         usr'.id = usr.id ∧ usr'.username = usr.username ∧
         usr'.stats.wins = (if p.id = winner.id then usr.stats.wins + 1 else usr.stats.wins) ∧
         usr'.stats.losses = (if p.id = winner.id then usr.stats.losses else usr.stats.losses + 1) ∧
         (∀ op ∈ room.players, op.id ≠ p.id →
            vsGet usr'.stats.vs op.username =
              (if p.id = winner.id
               then ⟨(vsGet usr.stats.vs op.username).wins + 1, (vsGet usr.stats.vs op.username).losses⟩
               else ⟨(vsGet usr.stats.vs op.username).wins, (vsGet usr.stats.vs op.username).losses + 1⟩))) ∧
    (∀ p ∈ room.players, findUser s.users p.id = none →
       findUser ((updateState s (some u) rid ns (some wv) hid now).2).users p.id = none) := by
  rw [updateState_winner s u rid ns wv hid now room winner hr hm hwv hst hfind]
  refine ⟨?_, ?_, ?_⟩
  · rw [show ({ s with users := applyWinnerStats s.users room.players winner.id, rooms := (alistSet s.rooms rid { room with state := ns, revision := room.revision + 1, started := false }), history := s.history ++ [{ id := hid, roomId := rid, players := room.players.map (fun p => p.username), winner := winner.username, atTime := now }] } : Store).rooms = alistSet s.rooms rid { room with state := ns, revision := room.revision + 1, started := false } from rfl]
    rw [alistGet_alistSet_self]
    rfl
  · intro p hp usr husr
    have h1 := applyWinnerStats_findUser s.users room.players winner.id p hp hndid
    rw [husr] at h1
    refine ⟨_, h1, rfl, rfl, ?_, ?_, ?_⟩
    · exact scoreStats_wins room.players winner.id p usr.stats
    · exact scoreStats_losses room.players winner.id p usr.stats
    · intro op hop hne
      exact scoreStats_vsGet room.players winner.id p usr.stats op hop hne hndname
  · intro p hp hnone
    have h1 := applyWinnerStats_findUser s.users room.players winner.id p hp hndid
    rw [hnone] at h1
    exact h1

/-- A three-player started room `[A, B, C]` with durable records for all
three, used to witness the aggregator theorem on the spec's own example. -/
def seatA : Seat := { id := "a", username := "A", connected := true }

def seatB : Seat := { id := "b", username := "B", connected := true }

def seatC : Seat := { id := "c", username := "C", connected := true }

def roomD : Room :=
  { id := "g", hostId := "a", players := [seatA, seatB, seatC], maxPlayers := .int 4
    started := true, locked := false, state := .null, revision := 7 }

def storeD : Store :=
  { users := [{ id := "a", username := "A", stats := { wins := 0, losses := 0, vs := [] } },
              { id := "b", username := "B", stats := { wins := 0, losses := 0, vs := [] } },
              { id := "c", username := "C", stats := { wins := 0, losses := 0, vs := [] } }]
    rooms := [("g", roomD)], history := [] }

theorem C5_witness :
    (alistGet ((updateState storeD (some ⟨"a", "A"⟩) "g" JValue.null (some "a") "m1" 0).2).rooms
        "g").map Room.started = some false :=
  (C5_everyone_vs_everyone storeD ⟨"a", "A"⟩ "g" JValue.null "a" "m1" 0 roomD seatA
    rfl rfl (by decide) rfl rfl (by decide) (by decide)).1

/-- An UpdateState against a non-started room: the state is replaced and
the revision bumped, but `started` is untouched, no stats run and no
history entry is appended — whatever `reportWinnerId` was sent. -/
theorem updateState_open_room (s : Store) (u : Auth) (rid : String) (ns : JValue)
    (w : Option String) (hid : String) (now : Nat) (room : Room)
    (hr : alistGet s.rooms rid = some room)
    (hm : room.players.any (fun p => p.id == u.id) = true)
    (hns : room.started = false) :
    updateState s (some u) rid ns w hid now =
      (.ok (room.revision + 1),
       { s with rooms := alistSet s.rooms rid { room with state := ns, revision := room.revision + 1 } }) := by
  cases w with
  | none => exact updateState_no_winner s u rid ns none hid now room hr hm rfl
  | some wv =>
    have hwo : (if wv != "" && room.started
        then room.players.find? (fun p => p.id == wv) else none) = (none : Option Seat) := by
      simp [hns]
    exact updateState_no_winner s u rid ns (some wv) hid now room hr hm hwo

theorem updateState_open_room_history (s : Store) (u : Auth) (rid : String) (ns : JValue)
    (w : Option String) (hid : String) (now : Nat) (room : Room)
    (hr : alistGet s.rooms rid = some room)
    (hm : room.players.any (fun p => p.id == u.id) = true)
    (hns : room.started = false) :
    ((updateState s (some u) rid ns w hid now).2).history = s.history := by
  rw [updateState_open_room s u rid ns w hid now room hr hm hns]

/-- C6: a winner report against a non-started room still replaces state and
bumps the revision but performs no started transition, no stats update and
no history append; an accepted winner report appends exactly one history
entry, and replaying the same report against the now-open room appends
none. -/
theorem C6_winner_report_once :
    (∀ (s : Store) (u : Auth) (rid : String) (ns : JValue) (w : Option String)
       (hid : String) (now : Nat) (room : Room),
       alistGet s.rooms rid = some room →
       room.players.any (fun p => p.id == u.id) = true →
       room.started = false →
       updateState s (some u) rid ns w hid now =
         (.ok (room.revision + 1),
          { s with rooms := alistSet s.rooms rid { room with state := ns, revision := room.revision + 1 } })) ∧
    (∀ (s : Store) (u : Auth) (rid : String) (ns ns2 : JValue) (wv : String)
       (hid hid2 : String) (now now2 : Nat) (room : Room) (winner : Seat)
       (res1 : Except Err Nat) (s1 : Store),
       alistGet s.rooms rid = some room →
       room.players.any (fun p => p.id == u.id) = true →
       wv ≠ "" → room.started = true →
       room.players.find? (fun p => p.id == wv) = some winner →
       updateState s (some u) rid ns (some wv) hid now = (res1, s1) →
       s1.history = s.history ++
         [{ id := hid, roomId := rid, players := room.players.map (fun p => p.username), winner := winner.username, atTime := now }] ∧
       ((updateState s1 (some u) rid ns2 (some wv) hid2 now2).2).history = s1.history) := by
  constructor
  · exact updateState_open_room
  · intro s u rid ns ns2 wv hid hid2 now now2 room winner res1 s1 hr hm hwv hst hfind hpair
    rw [updateState_winner s u rid ns wv hid now room winner hr hm hwv hst hfind] at hpair
    injection hpair with hres hs1
    subst hs1
    constructor
    · rfl
    · exact updateState_open_room_history _ u rid ns2 (some wv) hid2 now2 _
        (alistGet_alistSet_self _ _ _) hm rfl

theorem C6_witness :
    updateState storeA (some ⟨"h", "H"⟩) "r" (JValue.num 1) (some "h") "x" 9 =
      (.ok (roomA.revision + 1),
       { storeA with rooms := alistSet storeA.rooms "r" { roomA with state := JValue.num 1, revision := roomA.revision + 1 } }) :=
  C6_winner_report_once.1 storeA ⟨"h", "H"⟩ "r" (JValue.num 1) (some "h") "x" 9 roomA rfl rfl rfl

/-- The `state` carried by a successful room response, for stating
round-trip facts about `Read`. -/
def respState : Except Err RoomView → Option JValue
  | .ok v => some v.state
  | .error _ => none

/-- C7 (counterexample): the falsy payload `0` is accepted by UpdateState,
but a subsequent Read returns `state = null`, not a value structurally
equal to the payload — `sanitizeRoom` maps every falsy stored state to
`null`. -/
theorem C7_counterexample :
    respState ((readRoom ((updateState storeA (some ⟨"h", "H"⟩) "r" (JValue.num 0) none "x" 0).2)
        (some ⟨"h", "H"⟩) "r").1) = some JValue.null ∧
    JValue.null ≠ JValue.num 0 :=
  ⟨rfl, fun h => JValue.noConfusion h⟩

/-- C7 (amended): for every truthy (or null) payload accepted by
UpdateState, a subsequent Read returns a `state` structurally equal to the
payload — the projection deep-copies the stored value, and `deepCopy` is
structural identity — and the read leaves the server-held state untouched.
Falsy non-null payloads (`0`, `""`, `false`) read back as `null`. -/
theorem C7_read_roundtrip (s : Store) (u u2 : Auth) (rid : String) (ns : JValue)
    (w : Option String) (hid : String) (now : Nat) (n : Nat) (s' : Store)
    (hok : updateState s (some u) rid ns w hid now = (.ok n, s'))
    (hns : ns.truthy = true ∨ ns = .null) :
    deepCopy ns = ns ∧
    ∃ r', alistGet s'.rooms rid = some r' ∧ r'.state = ns ∧
      (readRoom s' (some u2) rid).1 =
        .ok (sanitizeRoom { r' with players := setConnectedFirst r'.players u2.id } u2.id) ∧
      (sanitizeRoom { r' with players := setConnectedFirst r'.players u2.id } u2.id).state = ns ∧
      ∃ r'', alistGet ((readRoom s' (some u2) rid).2).rooms rid = some r'' ∧ r''.state = ns := by
  refine ⟨deepCopy_eq ns, ?_⟩
  obtain ⟨room, room', hr, hr', hrev, hstate, hpl⟩ :=
    updateState_ok_shape s u rid ns w hid now n s' hok
  refine ⟨room', hr', hstate, ?_, ?_, ?_⟩
  · rw [readRoom_ok s' u2 rid room' hr']
  · rcases hns with ht | hnull
    · simp [sanitizeRoom, hstate, ht, deepCopy_eq]
    · simp [sanitizeRoom, hstate, hnull, JValue.truthy]
  · rw [readRoom_ok s' u2 rid room' hr']
    exact ⟨_, alistGet_alistSet_self _ _ _, hstate⟩

theorem C7_witness :
    deepCopy (JValue.num 7) = JValue.num 7 ∧
    ∃ r', alistGet ((updateState storeA (some ⟨"h", "H"⟩) "r" (JValue.num 7) none "x" 0).2).rooms
        "r" = some r' ∧ r'.state = JValue.num 7 ∧
      (readRoom ((updateState storeA (some ⟨"h", "H"⟩) "r" (JValue.num 7) none "x" 0).2)
          (some ⟨"h", "H"⟩) "r").1 =
        .ok (sanitizeRoom { r' with players := setConnectedFirst r'.players "h" } "h") ∧
      (sanitizeRoom { r' with players := setConnectedFirst r'.players "h" } "h").state =
        JValue.num 7 ∧
      ∃ r'', alistGet ((readRoom ((updateState storeA (some ⟨"h", "H"⟩) "r" (JValue.num 7) none "x" 0).2)
          (some ⟨"h", "H"⟩) "r").2).rooms "r" = some r'' ∧ r''.state = JValue.num 7 :=
  C7_read_roundtrip storeA ⟨"h", "H"⟩ ⟨"h", "H"⟩ "r" (JValue.num 7) none "x" 0 _ _ rfl
    (Or.inl rfl)
